import Mathlib

/-!
Verification development for the per-room end-to-end encryption controller
(E2EERoomClient and its Cipher) of the Rocket.Chat client fragment.

The TypeScript source is shallowly embedded: JavaScript strings become
`String`, byte arrays (`Uint8Array`) become `List Nat`, opaque `CryptoKey`
and `JsonWebKey` handles become `Nat`, promises returning a value become
plain values, promise rejection becomes `Except Unit`, and the external
collaborators (WebCrypto, Base64, EJSON, JSON, the RPC client and the
notification bus) are gathered in an `Env` record of function-valued
fields.  Asynchronous methods are modelled as state transformers that also
return the trace of externally observable events (event emissions, RPC
calls, notifications) in the order the source performs them; continuations
that the source fires without awaiting are serialized at their invocation
point.
-/

/-- Bytes of a JavaScript `Uint8Array` / `ArrayBuffer`. -/
abbrev Bytes := List Nat

/-- Opaque `CryptoKey` handle. -/
abbrev CKey := Nat

/-- Opaque `JsonWebKey` value. -/
abbrev JWK := Nat

/-- The plaintext record serialized by the cipher
(`{ _id, text, userId, ts }`, with `ts : Date` as epoch milliseconds). -/
structure EncryptableMessage where
  _id : String
  text : String
  userId : String
  ts : Int
  deriving DecidableEq, Repr

/-- The subset of `IMessage` the controller manipulates, plus a `rest`
field standing for all further fields carried through object spreads. -/
structure Message where
  _id : String
  t : Option String
  e2e : Option String
  msg : String
  u : String
  ts : Int
  rest : List (String × String)
  deriving DecidableEq, Repr

/-- `RoomMetadata` as produced by `getRoomMetadata`. -/
structure RoomMetadata where
  uid : String
  encryptionRequired : Bool
  roomKeyID : Option String
  encryptedKey : Option String
  lastMessage : Option Message
  deriving DecidableEq, Repr

/-- A room participant as returned by the `e2e.getUsersOfRoomWithoutKey`
RPC: the user id and, when registered, the `e2e.public_key` JSON string. -/
structure Participant where
  id : String
  e2ePublicKey : Option String
  deriving DecidableEq, Repr

/-- Failure modes of `Cipher.decrypt`: the thrown
`input is not decryptable`, an AEAD rejection, and the thrown
`unknown decrypted message format`. -/
inductive DecryptError where
  | notDecryptable
  | aesFailure
  | malformedPlaintext
  deriving DecidableEq, Repr

/-- The external collaborators, bundled.  Fallible asynchronous calls
return `Except Unit _` (`error` = promise rejection).  `ejsonParse`
combines `EJSON.parse` with the `isEncryptableMessage` shape check:
`some m` when the parsed value has the expected shape, `none` otherwise.
`importRSAKey` combines `JSON.parse` of the public key with the
WebCrypto key ingestion.  `randomVector` is the 16-byte draw of `crypto.getRandomValues`,
`now` is `Date.now()`, and `serverOffset` is `TimeSync.serverOffset()`
with `none` standing for `NaN`. -/
structure Env where
  encryptAES : Bytes → CKey → Bytes → Bytes
  decryptAES : Bytes → CKey → Bytes → Except Unit Bytes
  b64encode : Bytes → String
  b64decode : String → Bytes
  b64encodeStr : String → String
  txtEncode : String → Bytes
  txtDecode : Bytes → String
  bufToStr : Bytes → String
  strToBuf : String → Bytes
  ejsonStringify : EncryptableMessage → String
  ejsonParse : String → Option EncryptableMessage
  decryptRSA : CKey → Bytes → Except Unit Bytes
  encryptRSA : CKey → Bytes → Except Unit Bytes
  importRSAKey : String → Except Unit CKey
  jsonParseJWK : String → Except Unit JWK
  importAESKey : JWK → Except Unit CKey
  generateAESKey : Except Unit CKey
  exportJWKKey : CKey → JWK
  jsonStringifyJWK : JWK → String
  postSetRoomKeyID : String → String → Except Unit Unit
  getUsersOfRoomWithoutKey : String → Except Unit (List Participant)
  postUpdateGroupKey : String → String → String → Except Unit Unit
  randomVector : Bytes
  now : Int
  serverOffset : Option Int

/-- JavaScript `s.slice(0, n)`. -/
def stringTake (s : String) (n : Nat) : String := ⟨s.data.take n⟩

/-- JavaScript `s.slice(n)`. -/
def stringDrop (s : String) (n : Nat) : String := ⟨s.data.drop n⟩

/-- `extractEncryptedKeyId`: the first 12 characters of the encrypted
data. -/
def extractEncryptedKeyId (encryptedData : String) : String :=
  stringTake encryptedData 12

/-- `extractEncryptedBody`: base64-decode everything after the first 12
characters. -/
def extractEncryptedBody (env : Env) (encryptedData : String) : Bytes :=
  env.b64decode (stringDrop encryptedData 12)

/-- Modelled from the spec: `joinVectorAndEncryptedData` (helper module not
in the fragment) concatenates the 16-byte nonce with the AEAD output. -/
def joinVectorAndEncryptedData (vector data : Bytes) : Bytes :=
  vector ++ data

/-- Modelled from the spec: `splitVectorAndEncryptedData` (helper module
not in the fragment) splits the first 16 bytes (the nonce) from the
ciphertext. -/
def splitVectorAndEncryptedData (b : Bytes) : Bytes × Bytes :=
  (b.take 16, b.drop 16)

namespace Cipher

/-- `Cipher.encrypt`: serialize, AEAD-encrypt under a drawn nonce, output
`keyID ++ base64(nonce ++ ciphertext)`.  The nonce drawn by
`crypto.getRandomValues` is passed explicitly. -/
def encrypt (env : Env) (input : EncryptableMessage) (key : CKey)
    (keyID : String) (vector : Bytes) : String :=
  let data := env.txtEncode (env.ejsonStringify input)
  let result := env.encryptAES vector key data
  keyID ++ env.b64encode (joinVectorAndEncryptedData vector result)

/-- `Cipher.decrypt`: check the embedded key id, base64-decode, split
nonce from ciphertext, AEAD-decrypt, deserialize, check the shape. -/
def decrypt (env : Env) (input : String) (key : CKey) (keyID : String) :
    Except DecryptError EncryptableMessage :=
  if extractEncryptedKeyId input ≠ keyID then
    .error .notDecryptable
  else
    let encrypted := extractEncryptedBody env input
    let (vector, cipherText) := splitVectorAndEncryptedData encrypted
    match env.decryptAES vector key cipherText with
    | .error _ => .error .aesFailure
    | .ok result =>
      let decryptedText := env.txtDecode result
      match env.ejsonParse decryptedText with
      | some parsed => .ok parsed
      | none => .error .malformedPlaintext

end Cipher

/-- The mutable fields of `E2EERoomClient`: the last-observed metadata
snapshot and the session-key triple `key` / `keyID` /
`sessionKeyExportedString`. -/
structure ClientState where
  metadata : Option RoomMetadata
  key : Option CKey
  keyID : Option String
  sessionKeyExportedString : Option String
  deriving DecidableEq, Repr

/-- Externally observable steps of the lifecycle manager, in program
order: event emissions, invocations of the decrypt queue, RPC calls, the
per-participant distributor invocation, the key-request broadcast, and
the `console.error` in the catch handlers. -/
inductive Event where
  | keyChanged
  | decryptLastMessageCall
  | decryptPendingMessagesCall
  | rpcSetRoomKeyID (rid keyID : String)
  | rpcGetUsersWithoutKey (rid : String)
  | distributeTo (uid : String)
  | pushGroupKey (uid wrappedKey : String)
  | keyRequest (keyID : String)
  | errorLogged
  deriving DecidableEq, Repr

/-- JavaScript truthiness of a `string | undefined` value: defined and
non-empty. -/
def strTruthy : Option String → Bool
  | none => false
  | some s => s ≠ ""

/-- The guard `keyID && key && keyID === roomKeyId` of
`handleMetadataChanged`. -/
def keyValid (st : ClientState) (md : RoomMetadata) : Bool :=
  match st.keyID, st.key with
  | some kid, some _ => kid ≠ "" && md.roomKeyID == some kid
  | _, _ => false

/-- `discardKey`: clear the three session-key fields. -/
def discardKey (st : ClientState) : ClientState :=
  { st with key := none, keyID := none, sessionKeyExportedString := none }

/-- The three assignments at the end of `importSubscriptionKey` and
`createGroupKey`: adopt a key, its id and its exported material. -/
def applyAdopt (st : ClientState) (r : CKey × String × String) :
    ClientState :=
  { st with
    key := some r.1
    keyID := some r.2.1
    sessionKeyExportedString := some r.2.2 }

/-- The fallible computation of `importSubscriptionKey` before its three
assignments: strip the key-id prefix, base64-decode, RSA-decrypt with the
user's private key, parse the JWK, import the AES key; the adopted key id
is the first 12 characters of the base64 encoding of the exported
material. -/
def importSubscriptionKey (env : Env) (userPrivateKey : CKey)
    (encryptedSubscriptionKey : String) :
    Except Unit (CKey × String × String) := do
  let encryptedBody := extractEncryptedBody env encryptedSubscriptionKey
  let decrypted ← env.decryptRSA userPrivateKey encryptedBody
  let unencryptedSubscriptionKey := env.bufToStr decrypted
  let jwkSubscriptionKey ← env.jsonParseJWK unencryptedSubscriptionKey
  let subscriptionKey ← env.importAESKey jwkSubscriptionKey
  return (subscriptionKey,
    extractEncryptedKeyId (env.b64encodeStr unencryptedSubscriptionKey),
    unencryptedSubscriptionKey)

/-- The key id `createGroupKey` derives for a generated key: the first 12
characters of the base64 encoding of the JSON-serialized JWK export. -/
def derivedKeyID (env : Env) (k : CKey) : String :=
  extractEncryptedKeyId
    (env.b64encodeStr (env.jsonStringifyJWK (env.exportJWKKey k)))

/-- `encryptForParticipant`: skip silently when the participant has no
public key, when the RSA key import rejects, when no exported material is
held, or when the RSA encryption rejects; otherwise push
`keyID ++ base64(wrapped)` via the `e2e.updateGroupKey` RPC.  The leading
`distributeTo` event records the invocation itself; an undefined
`this.keyID` coerces to the string `undefined` under JavaScript
concatenation. -/
def encryptForParticipantEvents (env : Env) (st : ClientState)
    (user : Participant) : List Event :=
  .distributeTo user.id ::
    match user.e2ePublicKey with
    | none => []
    | some pk =>
      match env.importRSAKey pk with
      | .error _ => []
      | .ok userKey =>
        match st.sessionKeyExportedString with
        | none => []
        | some sess =>
          match env.encryptRSA userKey (env.strToBuf sess) with
          | .error _ => []
          | .ok enc =>
            [.pushGroupKey user.id
              ((match st.keyID with
                | some kid => kid
                | none => "undefined") ++ env.b64encode enc)]

/-- `encryptKeyForOtherParticipants`: fetch the participants without the
key (the only awaited, hence failure-propagating, step) and run the
distributor for each; the per-participant promises are not awaited, so
their failures never propagate. -/
def encryptKeyForOtherParticipants (env : Env) (rid : String)
    (st : ClientState) : List Event × Bool :=
  match env.getUsersOfRoomWithoutKey rid with
  | .error _ => ([.rpcGetUsersWithoutKey rid], false)
  | .ok users =>
    (.rpcGetUsersWithoutKey rid ::
      users.flatMap (encryptForParticipantEvents env st), true)

/-- `createGroupKey`: generate an AES key, export it, derive its key id,
publish the id via the `e2e.setRoomKeyID` RPC, adopt the triple, then
distribute.  Returns the state, the trace, and whether the returned
promise resolved (`false` = rejected somewhere). -/
def createGroupKey (env : Env) (rid : String) (st : ClientState) :
    ClientState × List Event × Bool :=
  match env.generateAESKey with
  | .error _ => (st, [], false)
  | .ok subscriptionKey =>
    let unencryptedSubscriptionKey :=
      env.jsonStringifyJWK (env.exportJWKKey subscriptionKey)
    let keyID := derivedKeyID env subscriptionKey
    match env.postSetRoomKeyID rid keyID with
    | .error _ => (st, [.rpcSetRoomKeyID rid keyID], false)
    | .ok _ =>
      let st' := applyAdopt st
        (subscriptionKey, keyID, unencryptedSubscriptionKey)
      let r := encryptKeyForOtherParticipants env rid st'
      (st', .rpcSetRoomKeyID rid keyID :: r.1, r.2)

/-- `handleMetadataChanged`, with the asynchronous import/create
continuations (their `then` emitting `keyChanged`, their `catch` logging)
run to completion. -/
def handleMetadataChanged (env : Env) (userPrivateKey : CKey)
    (rid : String) (st : ClientState) : ClientState × List Event :=
  match st.metadata with
  | none => (discardKey st, [.keyChanged])
  | some md =>
    if keyValid st md then
      (st, [.decryptLastMessageCall, .decryptPendingMessagesCall])
    else
      let st₁ := discardKey st
      if strTruthy md.encryptedKey then
        match importSubscriptionKey env userPrivateKey
            (md.encryptedKey.getD "") with
        | .ok r => (applyAdopt st₁ r, [.keyChanged, .keyChanged])
        | .error _ => (st₁, [.keyChanged, .errorLogged])
      else if !strTruthy md.roomKeyID then
        let r := createGroupKey env rid st₁
        (r.1, .keyChanged :: r.2.1 ++
          [if r.2.2 then .keyChanged else .errorLogged])
      else
        (st₁, [.keyChanged, .keyRequest (md.roomKeyID.getD "")])

/-- Result of `decryptMessage`: the resolved message, suspension inside a
key waiter, or a propagated rejection. -/
inductive DecResult where
  | returned (m : Message)
  | blocked
  | failed (e : DecryptError)
  deriving DecidableEq, Repr

/-- Result of `encryptMessage`. -/
inductive EncResult where
  | returned (m : Message)
  | blocked
  deriving DecidableEq, Repr

/-- `decryptMessage`: pass through non-e2e or already-done messages;
obtain key and key id from the cache (or suspend when `waitForKey`);
pass through when either is falsy; decrypt and rewrite `msg` and `e2e`. -/
def decryptMessage (env : Env) (st : ClientState) (message : Message)
    (waitForKey : Bool) : DecResult :=
  if message.t != some "e2e" || message.e2e == some "done" then
    .returned message
  else if waitForKey && st.key.isNone then .blocked
  else if waitForKey && st.keyID.isNone then .blocked
  else
    match st.key, st.keyID with
    | some key, some keyID =>
      if keyID = "" then .returned message
      else
        match Cipher.decrypt env message.msg key keyID with
        | .ok data =>
          .returned { message with msg := data.text, e2e := some "done" }
        | .error e => .failed e
    | _, _ => .returned message

/-- `encryptMessage`: pass through when metadata is absent, when the room
does not require encryption, or when the message is already of type
`e2e`; otherwise wait for the key pair, stamp the server-adjusted
timestamp, encrypt, and retag as pending ciphertext. -/
def encryptMessage (env : Env) (st : ClientState) (message : Message) :
    EncResult :=
  match st.metadata with
  | none => .returned message
  | some md =>
    if !md.encryptionRequired then .returned message
    else if message.t == some "e2e" then .returned message
    else
      match st.key, st.keyID with
      | some key, some keyID =>
        let ts := env.now + (match env.serverOffset with
          | none => 0
          | some offset => offset)
        let msg := Cipher.encrypt env
          { _id := message._id, text := message.msg, userId := md.uid,
            ts := ts }
          key keyID env.randomVector
        .returned { message with
          t := some "e2e", msg := msg, e2e := some "pending" }
      | _, _ => .blocked

/-- Modelled from the spec: `isShallowEqual` (utility module not in the
fragment) on two possibly-absent metadata snapshots — equal exactly when
both are absent or all fields coincide. -/
def shallowEqualOpt : Option RoomMetadata → Option RoomMetadata → Bool
  | none, none => true
  | some a, some b => a == b
  | _, _ => false

/-- One run of the `Tracker.autorun` body installed by `start`: compare
the fresh snapshot with the held one; when they differ, store it and emit
`metadataChanged` (the constructor wires that event to the handler). -/
def observeStep (held snapshot : Option RoomMetadata) :
    Option RoomMetadata × Bool :=
  if shallowEqualOpt held snapshot then (held, false) else (snapshot, true)

/-- Feed a sequence of snapshots through `observeStep`, counting handler
invocations. -/
def observeMany (held : Option RoomMetadata)
    (snapshots : List (Option RoomMetadata)) : Option RoomMetadata × Nat :=
  match snapshots with
  | [] => (held, 0)
  | snap :: rest =>
    let p := observeStep held snap
    let q := observeMany p.1 rest
    (q.1, (if p.2 then 1 else 0) + q.2)

/-- Unary run encoding of one byte, for the concrete text-safe binary
codec of the sample environment. -/
def encodeByteRun (n : Nat) : List Char := List.replicate n 'a' ++ [',']

/-- Concatenated unary runs for a byte list. -/
def encodeBytes (l : Bytes) : List Char := l.flatMap encodeByteRun

/-- Inverse of `encodeBytes`: count letters up to each separator. -/
def decodeBytesAux (c : Nat) : List Char → Bytes
  | [] => []
  | ch :: r =>
    if ch = 'a' then decodeBytesAux (c + 1) r else c :: decodeBytesAux 0 r

/-- Concrete injective byte-to-text codec used as the base64 model. -/
def trivB64encode (b : Bytes) : String := ⟨encodeBytes b⟩

/-- Inverse of `trivB64encode`. -/
def trivB64decode (s : String) : Bytes := decodeBytesAux 0 s.data

theorem decodeBytesAux_run (n : Nat) (r : List Char) : ∀ c : Nat,
    decodeBytesAux c (List.replicate n 'a' ++ ',' :: r) =
      (c + n) :: decodeBytesAux 0 r := by
  induction n with
  | zero => intro c; simp [decodeBytesAux]
  | succ n ih =>
    intro c
    rw [List.replicate_succ, List.cons_append]
    show decodeBytesAux c ('a' :: _) = _
    rw [decodeBytesAux, if_pos rfl, ih (c + 1)]
    congr 1
    omega

theorem trivB64_roundtrip (b : Bytes) :
    trivB64decode (trivB64encode b) = b := by
  show decodeBytesAux 0 (encodeBytes b) = b
  induction b with
  | nil => rfl
  | cons x xs ih =>
    show decodeBytesAux 0 (encodeByteRun x ++ encodeBytes xs) = x :: xs
    rw [encodeByteRun, List.append_assoc, List.singleton_append,
      decodeBytesAux_run, ih, Nat.zero_add]

/-- Concrete string-to-bytes codec used as the text encoder model:
one code point per byte. -/
def trivTxtEncode (s : String) : Bytes := s.data.map Char.toNat

/-- Inverse of `trivTxtEncode`. -/
def trivTxtDecode (l : Bytes) : String := ⟨l.map Char.ofNat⟩

theorem trivTxt_roundtrip (s : String) :
    trivTxtDecode (trivTxtEncode s) = s := by
  show String.mk ((s.data.map Char.toNat).map Char.ofNat) = s
  rw [List.map_map]
  have : s.data.map (Char.ofNat ∘ Char.toNat) = s.data := by
    induction s.data with
    | nil => rfl
    | cons c cs ih => simp [ih, Char.ofNat_toNat]
  rw [this]

/-- Length-prefixed encoding of one string field for the concrete
serializer model. -/
def encFieldStr (s : String) : List Char :=
  List.replicate s.data.length 'a' ++ ':' :: s.data

/-- Sign-tagged unary encoding of one integer field. -/
def encFieldInt (i : Int) : List Char :=
  match i with
  | .ofNat n => 'p' :: (List.replicate n 'a' ++ [':'])
  | .negSucc n => 'n' :: (List.replicate n 'a' ++ [':'])

/-- Concrete injective record serializer used as the EJSON model. -/
def trivStringify (m : EncryptableMessage) : String :=
  ⟨encFieldStr m._id ++ (encFieldStr m.text ++
    (encFieldStr m.userId ++ encFieldInt m.ts))⟩

/-- Read one length-prefixed string field. -/
def parseFieldStrAux (k : Nat) : List Char → Option (String × List Char)
  | [] => none
  | ch :: r =>
    if ch = 'a' then parseFieldStrAux (k + 1) r
    else if ch = ':' then some (⟨r.take k⟩, r.drop k)
    else none

/-- Read one unary natural. -/
def parseFieldNatAux (k : Nat) : List Char → Option (Nat × List Char)
  | [] => none
  | ch :: r =>
    if ch = 'a' then parseFieldNatAux (k + 1) r
    else if ch = ':' then some (k, r)
    else none

/-- Read one sign-tagged integer field. -/
def parseFieldInt : List Char → Option (Int × List Char)
  | [] => none
  | ch :: r =>
    if ch = 'p' then (parseFieldNatAux 0 r).map fun p => (Int.ofNat p.1, p.2)
    else if ch = 'n' then
      (parseFieldNatAux 0 r).map fun p => (Int.negSucc p.1, p.2)
    else none

/-- Inverse of `trivStringify`, including the shape check. -/
def trivParse (s : String) : Option EncryptableMessage :=
  match parseFieldStrAux 0 s.data with
  | none => none
  | some (i, r1) =>
    match parseFieldStrAux 0 r1 with
    | none => none
    | some (t, r2) =>
      match parseFieldStrAux 0 r2 with
      | none => none
      | some (u, r3) =>
        match parseFieldInt r3 with
        | none => none
        | some (ts, _) => some ⟨i, t, u, ts⟩

theorem parseFieldStrAux_run (n : Nat) (t : List Char) : ∀ k : Nat,
    parseFieldStrAux k (List.replicate n 'a' ++ ':' :: t) =
      some (⟨t.take (k + n)⟩, t.drop (k + n)) := by
  induction n with
  | zero => intro k; simp [parseFieldStrAux]
  | succ n ih =>
    intro k
    rw [List.replicate_succ, List.cons_append]
    show parseFieldStrAux k ('a' :: _) = _
    rw [parseFieldStrAux, if_pos rfl, ih (k + 1)]
    have : k + 1 + n = k + (n + 1) := by omega
    rw [this]

theorem parseFieldStrAux_enc (s : String) (rest : List Char) :
    parseFieldStrAux 0 (encFieldStr s ++ rest) = some (s, rest) := by
  rw [encFieldStr, List.append_assoc, List.cons_append,
    parseFieldStrAux_run s.data.length (s.data ++ rest) 0, Nat.zero_add,
    List.take_left, List.drop_left]

theorem parseFieldNatAux_run (n : Nat) (t : List Char) : ∀ k : Nat,
    parseFieldNatAux k (List.replicate n 'a' ++ ':' :: t) =
      some (k + n, t) := by
  induction n with
  | zero => intro k; simp [parseFieldNatAux]
  | succ n ih =>
    intro k
    rw [List.replicate_succ, List.cons_append]
    show parseFieldNatAux k ('a' :: _) = _
    rw [parseFieldNatAux, if_pos rfl, ih (k + 1)]
    have : k + 1 + n = k + (n + 1) := by omega
    rw [this]

theorem parseFieldInt_enc (i : Int) (rest : List Char) :
    parseFieldInt (encFieldInt i ++ rest) = some (i, rest) := by
  cases i with
  | ofNat n =>
    simp only [encFieldInt, List.cons_append, List.append_assoc,
      List.singleton_append, List.nil_append]
    rw [parseFieldInt, if_pos rfl, parseFieldNatAux_run n rest 0]
    simp
  | negSucc n =>
    simp only [encFieldInt, List.cons_append, List.append_assoc,
      List.singleton_append, List.nil_append]
    rw [parseFieldInt, if_neg (by decide), if_pos rfl,
      parseFieldNatAux_run n rest 0]
    simp

theorem trivParse_trivStringify (m : EncryptableMessage) :
    trivParse (trivStringify m) = some m := by
  show trivParse ⟨_⟩ = some m
  rw [trivParse]
  simp only [parseFieldStrAux_enc]
  have h4 : parseFieldInt (encFieldInt m.ts) = some (m.ts, []) := by
    have := parseFieldInt_enc m.ts []
    rwa [List.append_nil] at this
  rw [h4]

/-- A concrete, law-abiding sample environment: identity AEAD, the unary
byte codec for base64, the code-point codec for text, the length-prefixed
serializer for EJSON, and trivially succeeding RSA / JWK / RPC stubs. -/
def trivEnv : Env where
  encryptAES := fun _ _ d => d
  decryptAES := fun _ _ c => .ok c
  b64encode := trivB64encode
  b64decode := trivB64decode
  b64encodeStr := fun s => trivB64encode (trivTxtEncode s)
  txtEncode := trivTxtEncode
  txtDecode := trivTxtDecode
  bufToStr := trivTxtDecode
  strToBuf := trivTxtEncode
  ejsonStringify := trivStringify
  ejsonParse := trivParse
  decryptRSA := fun _ b => .ok b
  encryptRSA := fun _ b => .ok b
  importRSAKey := fun _ => .ok 0
  jsonParseJWK := fun _ => .ok 0
  importAESKey := fun _ => .ok 0
  generateAESKey := .ok 0
  exportJWKKey := fun k => k
  jsonStringifyJWK := fun _ => "J"
  postSetRoomKeyID := fun _ _ => .ok ()
  getUsersOfRoomWithoutKey := fun _ => .ok []
  postUpdateGroupKey := fun _ _ _ => .ok ()
  randomVector := List.replicate 16 0
  now := 0
  serverOffset := none

theorem extractEncryptedKeyId_append (keyID t : String)
    (h : keyID.length = 12) :
    extractEncryptedKeyId (keyID ++ t) = keyID := by
  have h' : keyID.data.length = 12 := h
  show String.mk ((keyID ++ t).data.take 12) = keyID
  rw [String.data_append, ← h', List.take_left]

theorem stringDrop_append_left (keyID t : String)
    (h : keyID.length = 12) : stringDrop (keyID ++ t) 12 = t := by
  have h' : keyID.data.length = 12 := h
  show String.mk ((keyID ++ t).data.drop 12) = t
  rw [String.data_append, ← h', List.drop_left]

/-- Claim C1: for every plaintext message, AEAD key and 12-character key
id, and every 16-byte nonce the encryptor may draw, decrypting the output
of `Cipher.encrypt` with the same key and key id returns the original
message, provided the external base64, AEAD, text and EJSON codecs
satisfy their round-trip contracts. -/
theorem cipher_roundtrip (env : Env) (m : EncryptableMessage) (k : CKey)
    (keyID : String) (vector : Bytes)
    (hid : keyID.length = 12) (hvec : vector.length = 16)
    (hb64 : ∀ b, env.b64decode (env.b64encode b) = b)
    (haes : ∀ v key d, env.decryptAES v key (env.encryptAES v key d) = .ok d)
    (htxt : ∀ s, env.txtDecode (env.txtEncode s) = s)
    (hejson : ∀ x, env.ejsonParse (env.ejsonStringify x) = some x) :
    Cipher.decrypt env (Cipher.encrypt env m k keyID vector) k keyID =
      .ok m := by
  simp only [Cipher.encrypt, Cipher.decrypt, extractEncryptedBody,
    joinVectorAndEncryptedData, splitVectorAndEncryptedData]
  rw [extractEncryptedKeyId_append _ _ hid, stringDrop_append_left _ _ hid,
    hb64]
  rw [if_neg (fun hne => hne rfl)]
  have hvec' : vector.length = 16 := hvec
  rw [← hvec', List.take_left, List.drop_left, haes]
  simp [htxt, hejson]

/-- Closed instance of `cipher_roundtrip` at the sample environment. -/
theorem cipher_roundtrip_witness :
    ("ABCDEFGHIJKL" : String).length = 12 ∧
    (List.replicate 16 7 : Bytes).length = 16 ∧
    Cipher.decrypt trivEnv
      (Cipher.encrypt trivEnv ⟨"i", "hi", "u", 2⟩ 5 "ABCDEFGHIJKL"
        (List.replicate 16 7)) 5 "ABCDEFGHIJKL" =
      .ok ⟨"i", "hi", "u", 2⟩ :=
  ⟨by decide, by decide,
    cipher_roundtrip trivEnv ⟨"i", "hi", "u", 2⟩ 5 "ABCDEFGHIJKL"
      (List.replicate 16 7) (by decide) (by decide)
      trivB64_roundtrip (fun _ _ _ => rfl) trivTxt_roundtrip
      trivParse_trivStringify⟩

/-- Claim C2: whenever the first 12 characters of the input differ from
the caller-supplied key id — in particular for any ciphertext produced by
`Cipher.encrypt` under a 12-character key id `a` decrypted under
`b ≠ a` — `Cipher.decrypt` fails with the not-decryptable error before
any AEAD decryption is reached. -/
theorem cipher_decrypt_mismatch :
    (∀ (env : Env) (input : String) (k : CKey) (keyID : String),
      extractEncryptedKeyId input ≠ keyID →
      Cipher.decrypt env input k keyID = .error .notDecryptable) ∧
    (∀ (env : Env) (m : EncryptableMessage) (k : CKey) (a b : String)
      (vector : Bytes), a.length = 12 → a ≠ b →
      Cipher.decrypt env (Cipher.encrypt env m k a vector) k b =
        .error .notDecryptable) := by
  constructor
  · intro env input k keyID h
    rw [Cipher.decrypt, if_pos h]
  · intro env m k a b vector ha hab
    rw [Cipher.decrypt, if_pos]
    show extractEncryptedKeyId (a ++ _) ≠ b
    rw [extractEncryptedKeyId_append _ _ ha]
    exact hab

/-- Closed instance of `cipher_decrypt_mismatch` at concrete inputs. -/
theorem cipher_decrypt_mismatch_witness :
    Cipher.decrypt trivEnv "XXXXXXXXXXXXbody" 5 "YYYYYYYYYYYY" =
      .error .notDecryptable ∧
    Cipher.decrypt trivEnv
      (Cipher.encrypt trivEnv ⟨"i", "hi", "u", 2⟩ 5 "AAAAAAAAAAAA" [])
      5 "BBBBBBBBBBBB" = .error .notDecryptable :=
  ⟨cipher_decrypt_mismatch.1 trivEnv "XXXXXXXXXXXXbody" 5 "YYYYYYYYYYYY"
      (by decide),
    cipher_decrypt_mismatch.2 trivEnv ⟨"i", "hi", "u", 2⟩ 5 "AAAAAAAAAAAA"
      "BBBBBBBBBBBB" [] (by decide) (by decide)⟩

/-- Claim C7: non-e2e or already-done messages pass through unchanged for
either waiting mode, and with waiting disabled an uncached key or key id
also yields the unchanged message — never an error. -/
theorem decryptMessage_passthrough :
    (∀ (env : Env) (st : ClientState) (m : Message) (w : Bool),
      m.t ≠ some "e2e" ∨ m.e2e = some "done" →
      decryptMessage env st m w = .returned m) ∧
    (∀ (env : Env) (st : ClientState) (m : Message),
      st.key = none ∨ st.keyID = none →
      decryptMessage env st m false = .returned m) := by
  constructor
  · intro env st m w h
    rcases h with h | h <;> simp [decryptMessage, h]
  · intro env st m h
    rw [decryptMessage]
    split
    · rfl
    · simp only [Bool.false_and, if_neg (by decide : ¬False), if_false]
      rcases h with h | h
      · rw [h]
        cases st.keyID <;> rfl
      · rw [h]
        cases st.key <;> rfl

/-- Closed instance of `decryptMessage_passthrough`. -/
theorem decryptMessage_passthrough_witness :
    decryptMessage trivEnv ⟨none, none, none, none⟩
      ⟨"m1", some "x", none, "body", "u", 0, []⟩ true =
      .returned ⟨"m1", some "x", none, "body", "u", 0, []⟩ ∧
    decryptMessage trivEnv ⟨none, none, none, none⟩
      ⟨"m2", some "e2e", some "pending", "body", "u", 0, []⟩ false =
      .returned ⟨"m2", some "e2e", some "pending", "body", "u", 0, []⟩ :=
  ⟨decryptMessage_passthrough.1 trivEnv ⟨none, none, none, none⟩
      ⟨"m1", some "x", none, "body", "u", 0, []⟩ true (by simp),
    decryptMessage_passthrough.2 trivEnv ⟨none, none, none, none⟩
      ⟨"m2", some "e2e", some "pending", "body", "u", 0, []⟩ (Or.inl rfl)⟩

/-- Claim C8: `encryptMessage` returns the input unchanged when the
metadata says encryption is not required, and when the message is already
of type e2e (regardless of the metadata); no key is fetched and no
ciphertext is produced in these cases. -/
theorem encryptMessage_noop :
    (∀ (env : Env) (st : ClientState) (m : Message) (md : RoomMetadata),
      st.metadata = some md → md.encryptionRequired = false →
      encryptMessage env st m = .returned m) ∧
    (∀ (env : Env) (st : ClientState) (m : Message),
      m.t = some "e2e" → encryptMessage env st m = .returned m) := by
  constructor
  · intro env st m md hmd hreq
    simp [encryptMessage, hmd, hreq]
  · intro env st m ht
    rw [encryptMessage]
    cases hmd : st.metadata with
    | none => rfl
    | some md =>
      by_cases hreq : md.encryptionRequired <;> simp [ht, hreq]

/-- Closed instance of `encryptMessage_noop`. -/
theorem encryptMessage_noop_witness :
    encryptMessage trivEnv
      ⟨some ⟨"u", false, none, none, none⟩, none, none, none⟩
      ⟨"m1", none, none, "hello", "u", 0, []⟩ =
      .returned ⟨"m1", none, none, "hello", "u", 0, []⟩ ∧
    encryptMessage trivEnv ⟨none, none, none, none⟩
      ⟨"m2", some "e2e", some "pending", "c", "u", 0, []⟩ =
      .returned ⟨"m2", some "e2e", some "pending", "c", "u", 0, []⟩ :=
  ⟨encryptMessage_noop.1 trivEnv
      ⟨some ⟨"u", false, none, none, none⟩, none, none, none⟩
      ⟨"m1", none, none, "hello", "u", 0, []⟩
      ⟨"u", false, none, none, none⟩ rfl rfl,
    encryptMessage_noop.2 trivEnv ⟨none, none, none, none⟩
      ⟨"m2", some "e2e", some "pending", "c", "u", 0, []⟩ rfl⟩

/-- Claim C9: starting from the fresh observer state (no snapshot held),
feeding two shallow-equal metadata snapshots in sequence invokes the
metadata-changed handler exactly once; the second, equal snapshot is
suppressed. -/
theorem metadata_suppression (m m' : RoomMetadata)
    (h : shallowEqualOpt (some m) (some m') = true) :
    (observeMany none [some m, some m']).2 = 1 := by
  simp [observeMany, observeStep, shallowEqualOpt] at h ⊢
  simp [h]

/-- Closed instance of `metadata_suppression`. -/
theorem metadata_suppression_witness :
    shallowEqualOpt (some ⟨"u", true, some "K", none, none⟩)
      (some ⟨"u", true, some "K", none, none⟩) = true ∧
    (observeMany none [some ⟨"u", true, some "K", none, none⟩,
      some ⟨"u", true, some "K", none, none⟩]).2 = 1 :=
  ⟨by decide,
    metadata_suppression ⟨"u", true, some "K", none, none⟩
      ⟨"u", true, some "K", none, none⟩ (by decide)⟩

/-- Claim C10: when `decryptMessage` actually decrypts, the result agrees
with the input on every field except exactly `msg` (replaced by the
recovered plaintext text) and `e2e` (set to done); id, sender, timestamp,
type and all extra fields are unchanged. -/
theorem decryptMessage_frame (env : Env) (st : ClientState) (m : Message)
    (w : Bool) (k : CKey) (kid : String) (d : EncryptableMessage)
    (ht : m.t = some "e2e") (he : m.e2e ≠ some "done")
    (hk : st.key = some k) (hkid : st.keyID = some kid) (hne : kid ≠ "")
    (hdec : Cipher.decrypt env m.msg k kid = .ok d) :
    decryptMessage env st m w =
      .returned ⟨m._id, m.t, some "done", d.text, m.u, m.ts, m.rest⟩ := by
  simp [decryptMessage, ht, he, hk, hkid, hne, hdec]

/-- Closed instance of `decryptMessage_frame` at a stub environment whose
deserializer returns a fixed plaintext record. -/
theorem decryptMessage_frame_witness :
    decryptMessage
      { trivEnv with
        b64decode := fun _ => []
        txtDecode := fun _ => ""
        ejsonParse := fun _ => some ⟨"x", "PT", "u", 0⟩ }
      ⟨none, some 9, some "KKKKKKKKKKKK", some "s"⟩
      ⟨"mid", some "e2e", some "pending", "KKKKKKKKKKKK", "u1", 7,
        [("k", "v")]⟩ false =
      .returned ⟨"mid", some "e2e", some "done", "PT", "u1", 7,
        [("k", "v")]⟩ :=
  decryptMessage_frame _ _ _ false 9 "KKKKKKKKKKKK" ⟨"x", "PT", "u", 0⟩
    rfl (by decide) rfl rfl (by decide) rfl

/-- All three session-key fields absent. -/
def allClear (st : ClientState) : Prop :=
  st.key = none ∧ st.keyID = none ∧ st.sessionKeyExportedString = none

/-- All three session-key fields present. -/
def allSet (st : ClientState) : Prop :=
  st.key.isSome ∧ st.keyID.isSome ∧ st.sessionKeyExportedString.isSome

/-- The atomicity invariant: never a partial mix. -/
def allOrNothing (st : ClientState) : Prop := allClear st ∨ allSet st

theorem createGroupKey_state (env : Env) (rid : String)
    (st : ClientState) :
    (createGroupKey env rid st).1 = st ∨
      allSet (createGroupKey env rid st).1 := by
  cases hg : env.generateAESKey with
  | error e => simp only [createGroupKey, hg]; left; trivial
  | ok sk =>
    simp only [createGroupKey, hg]
    cases hp : env.postSetRoomKeyID rid (derivedKeyID env sk) with
    | error e => simp only [hp]; left; trivial
    | ok u => simp only [hp]; exact Or.inr ⟨rfl, rfl, rfl⟩

theorem createGroupKey_ok_allSet (env : Env) (rid : String)
    (st : ClientState) (h : (createGroupKey env rid st).2.2 = true) :
    allSet (createGroupKey env rid st).1 := by
  cases hg : env.generateAESKey with
  | error e => simp only [createGroupKey, hg] at h; simp at h
  | ok sk =>
    simp only [createGroupKey, hg] at h ⊢
    cases hp : env.postSetRoomKeyID rid (derivedKeyID env sk) with
    | error e => simp only [hp] at h; simp at h
    | ok u => simp only [hp]; exact ⟨rfl, rfl, rfl⟩

/-- Claim C5: a discard clears all three session-key fields
simultaneously, every successful adopt (the assignment block shared by
the import and creation paths, and a creation whose promise resolves) sets all
three simultaneously, and the metadata handler as a whole preserves the
all-or-nothing invariant. -/
theorem sessionKey_atomicity :
    (∀ st : ClientState, allClear (discardKey st)) ∧
    (∀ (st : ClientState) (r : CKey × String × String),
      allSet (applyAdopt st r)) ∧
    (∀ (env : Env) (rid : String) (st : ClientState),
      (createGroupKey env rid st).2.2 = true →
      allSet (createGroupKey env rid st).1) ∧
    (∀ (env : Env) (priv : CKey) (rid : String) (st : ClientState),
      allOrNothing st →
      allOrNothing (handleMetadataChanged env priv rid st).1) := by
  refine ⟨fun st => ⟨rfl, rfl, rfl⟩, fun st r => ⟨rfl, rfl, rfl⟩,
    createGroupKey_ok_allSet, ?_⟩
  intro env priv rid st h
  cases hmd : st.metadata with
  | none =>
    simp only [handleMetadataChanged, hmd]
    exact Or.inl ⟨rfl, rfl, rfl⟩
  | some md =>
    simp only [handleMetadataChanged, hmd]
    by_cases hv : keyValid st md = true
    · rw [if_pos hv]
      exact h
    · rw [if_neg hv]
      by_cases he : strTruthy md.encryptedKey = true
      · rw [if_pos he]
        cases importSubscriptionKey env priv (md.encryptedKey.getD "") with
        | ok r => exact Or.inr ⟨rfl, rfl, rfl⟩
        | error e => exact Or.inl ⟨rfl, rfl, rfl⟩
      · rw [if_neg he]
        by_cases hr : strTruthy md.roomKeyID = true
        · rw [if_neg (by rw [hr]; decide)]
          exact Or.inl ⟨rfl, rfl, rfl⟩
        · have hr' : strTruthy md.roomKeyID = false := by
            revert hr; cases strTruthy md.roomKeyID <;> simp
          rw [if_pos (by rw [hr']; rfl)]
          show allOrNothing (createGroupKey env rid (discardKey st)).1
          rcases createGroupKey_state env rid (discardKey st) with hs | hs
          · rw [hs]; exact Or.inl ⟨rfl, rfl, rfl⟩
          · exact Or.inr hs

/-- Closed instance of `sessionKey_atomicity` covering a resolving
creation and a handler run. -/
theorem sessionKey_atomicity_witness :
    (createGroupKey trivEnv "r" ⟨none, none, none, none⟩).2.2 = true ∧
    allSet (createGroupKey trivEnv "r" ⟨none, none, none, none⟩).1 ∧
    allOrNothing ⟨none, none, none, none⟩ ∧
    allOrNothing
      (handleMetadataChanged trivEnv 0 "r" ⟨none, none, none, none⟩).1 :=
  ⟨by decide,
    sessionKey_atomicity.2.2.1 trivEnv "r" ⟨none, none, none, none⟩
      (by decide),
    Or.inl ⟨rfl, rfl, rfl⟩,
    sessionKey_atomicity.2.2.2 trivEnv 0 "r" ⟨none, none, none, none⟩
      (Or.inl ⟨rfl, rfl, rfl⟩)⟩

/-- Counterexample to claim C3: a wrapped key whose derived key id
("a,", two characters) differs from the room's published key id
("ABCDEFGHIJKL") is adopted anyway — all three session-key fields are
set from the imported material — and no key request is broadcast. -/
theorem import_mismatch_counterexample :
    (handleMetadataChanged trivEnv 0 "r"
      ⟨some ⟨"u", true, some "ABCDEFGHIJKL", some "XXXXXXXXXXXXa,", none⟩,
        none, none, none⟩).1.key = some 0 ∧
    (handleMetadataChanged trivEnv 0 "r"
      ⟨some ⟨"u", true, some "ABCDEFGHIJKL", some "XXXXXXXXXXXXa,", none⟩,
        none, none, none⟩).1.keyID = some "a," ∧
    some "a," ≠
      (⟨"u", true, some "ABCDEFGHIJKL", some "XXXXXXXXXXXXa,", none⟩ :
        RoomMetadata).roomKeyID ∧
    (handleMetadataChanged trivEnv 0 "r"
      ⟨some ⟨"u", true, some "ABCDEFGHIJKL", some "XXXXXXXXXXXXa,", none⟩,
        none, none, none⟩).2 = [.keyChanged, .keyChanged] := by
  decide

/-- Amended claim C3: on a metadata change carrying a wrapped key
whose import succeeds, the manager adopts the recovered key anyway —
even when its derived key id differs from the room's published
`roomKeyID` — and does not re-enter the request branch (the trace is two
`keyChanged` emissions, with no key-request broadcast). -/
theorem import_mismatched_key_adopted (env : Env) (priv : CKey)
    (rid : String) (st : ClientState) (md : RoomMetadata)
    (k : CKey) (kid s : String)
    (hmd : st.metadata = some md) (hv : keyValid st md = false)
    (he : strTruthy md.encryptedKey = true)
    (himp : importSubscriptionKey env priv (md.encryptedKey.getD "") =
      .ok (k, kid, s))
    (_hne : some kid ≠ md.roomKeyID) :
    (handleMetadataChanged env priv rid st).1 =
      applyAdopt (discardKey st) (k, kid, s) ∧
    (handleMetadataChanged env priv rid st).2 =
      [.keyChanged, .keyChanged] := by
  simp only [handleMetadataChanged, hmd, hv, he, himp]
  exact ⟨rfl, rfl⟩

/-- Closed instance of `import_mismatched_key_adopted`. -/
theorem import_mismatched_key_adopted_witness :
    (handleMetadataChanged trivEnv 3 "r"
      ⟨some ⟨"u", true, some "ABCDEFGHIJKL", some "XXXXXXXXXXXXa,", none⟩,
        none, none, none⟩).1 =
      applyAdopt
        (discardKey
          ⟨some ⟨"u", true, some "ABCDEFGHIJKL", some "XXXXXXXXXXXXa,",
            none⟩, none, none, none⟩)
        (0, "a,", trivTxtDecode [1]) ∧
    (handleMetadataChanged trivEnv 3 "r"
      ⟨some ⟨"u", true, some "ABCDEFGHIJKL", some "XXXXXXXXXXXXa,", none⟩,
        none, none, none⟩).2 = [.keyChanged, .keyChanged] :=
  import_mismatched_key_adopted trivEnv 3 "r" _ _ 0 "a," (trivTxtDecode [1])
    rfl (by decide) (by decide) rfl (by decide)

/-- Counterexample to claim C4: with the participants-without-key RPC
rejecting, the creation path fails after adoption — the error is caught
and logged, but the manager is left with all three session-key fields
set, not keyless. -/
theorem lifecycle_failure_counterexample :
    (handleMetadataChanged
      { trivEnv with getUsersOfRoomWithoutKey := fun _ => .error () }
      0 "r" ⟨some ⟨"u", true, none, none, none⟩, none, none, none⟩).1 =
      ⟨some ⟨"u", true, none, none, none⟩, some 0, some "aaaaaaaaaaaa",
        some "J"⟩ ∧
    (handleMetadataChanged
      { trivEnv with getUsersOfRoomWithoutKey := fun _ => .error () }
      0 "r" ⟨some ⟨"u", true, none, none, none⟩, none, none, none⟩).2 =
      [.keyChanged, .rpcSetRoomKeyID "r" "aaaaaaaaaaaa",
        .rpcGetUsersWithoutKey "r", .errorLogged] ∧
    ¬allClear (handleMetadataChanged
      { trivEnv with getUsersOfRoomWithoutKey := fun _ => .error () }
      0 "r" ⟨some ⟨"u", true, none, none, none⟩, none, none, none⟩).1 := by
  refine ⟨by decide, by decide, ?_⟩
  intro hc
  exact absurd hc.1 (by decide)

/-- Amended claim C4: errors during key import or key creation are caught
and logged and never crash the handler; after a failed import, or a
creation that fails before or at the key-id publication RPC, the state is
keyless; but a creation that fails in the participant-distribution step
after adoption leaves the newly created key adopted. -/
theorem lifecycle_failure_handling (env : Env) (priv : CKey)
    (rid : String) (st : ClientState) (md : RoomMetadata)
    (hmd : st.metadata = some md) (hv : keyValid st md = false) :
    (strTruthy md.encryptedKey = true →
      importSubscriptionKey env priv (md.encryptedKey.getD "") =
        .error () →
      allClear (handleMetadataChanged env priv rid st).1 ∧
      .errorLogged ∈ (handleMetadataChanged env priv rid st).2) ∧
    (strTruthy md.encryptedKey = false → strTruthy md.roomKeyID = false →
      (env.generateAESKey = .error () →
        allClear (handleMetadataChanged env priv rid st).1 ∧
        .errorLogged ∈ (handleMetadataChanged env priv rid st).2) ∧
      (∀ sk, env.generateAESKey = .ok sk →
        env.postSetRoomKeyID rid (derivedKeyID env sk) = .error () →
        allClear (handleMetadataChanged env priv rid st).1 ∧
        .errorLogged ∈ (handleMetadataChanged env priv rid st).2) ∧
      (∀ sk, env.generateAESKey = .ok sk →
        env.postSetRoomKeyID rid (derivedKeyID env sk) = .ok () →
        env.getUsersOfRoomWithoutKey rid = .error () →
        allSet (handleMetadataChanged env priv rid st).1 ∧
        .errorLogged ∈ (handleMetadataChanged env priv rid st).2)) := by
  constructor
  · intro he himp
    simp only [handleMetadataChanged, hmd, hv, he, himp]
    exact ⟨⟨rfl, rfl, rfl⟩, by simp⟩
  · intro he hr
    refine ⟨?_, ?_, ?_⟩
    · intro hg
      simp only [handleMetadataChanged, hmd, hv, he, hr, createGroupKey,
        hg]
      exact ⟨⟨rfl, rfl, rfl⟩, by simp⟩
    · intro sk hg hp
      simp only [handleMetadataChanged, hmd, hv, he, hr, createGroupKey,
        hg, hp]
      exact ⟨⟨rfl, rfl, rfl⟩, by simp⟩
    · intro sk hg hp hu
      simp only [handleMetadataChanged, hmd, hv, he, hr, createGroupKey,
        hg, hp, encryptKeyForOtherParticipants, hu]
      exact ⟨⟨rfl, rfl, rfl⟩, by simp⟩

/-- Closed instance of `lifecycle_failure_handling`: a failed import
leaves the state keyless with the error logged. -/
theorem lifecycle_failure_handling_witness :
    allClear (handleMetadataChanged
      { trivEnv with decryptRSA := fun _ _ => .error () }
      0 "r" ⟨some ⟨"u", true, some "K", some "W", none⟩,
        none, none, none⟩).1 ∧
    .errorLogged ∈ (handleMetadataChanged
      { trivEnv with decryptRSA := fun _ _ => .error () }
      0 "r" ⟨some ⟨"u", true, some "K", some "W", none⟩,
        none, none, none⟩).2 :=
  (lifecycle_failure_handling
    { trivEnv with decryptRSA := fun _ _ => .error () }
    0 "r" ⟨some ⟨"u", true, some "K", some "W", none⟩, none, none, none⟩
    ⟨"u", true, some "K", some "W", none⟩ rfl (by decide)).1
    (by decide) rfl

/-- Recognizer for the key-id publication RPC event. -/
def Event.isSetRoomKey : Event → Bool
  | .rpcSetRoomKeyID _ _ => true
  | _ => false

/-- Recognizer for a distributor invocation event. -/
def Event.isDistribute : Event → Bool
  | .distributeTo _ => true
  | _ => false

/-- Recognizer for a key-changed emission. -/
def Event.isKeyChanged : Event → Bool
  | .keyChanged => true
  | _ => false

/-- The ordering claimed for the fresh-room scenario: after the key-id
publication call, a key-changed emission occurs before any distributor
invocation (no distributor invocation strictly between the publication
and the next key-changed emission). -/
def emitsBeforeDistributing (tr : List Event) : Bool :=
  (((tr.dropWhile fun e => ! e.isSetRoomKey).drop 1).takeWhile
    fun e => ! e.isKeyChanged).all fun e => ! e.isDistribute

theorem perUserEvents_shape (env : Env) (st : ClientState)
    (u : Participant) :
    encryptForParticipantEvents env st u = [.distributeTo u.id] ∨
    ∃ w, encryptForParticipantEvents env st u =
      [.distributeTo u.id, .pushGroupKey u.id w] := by
  cases hpk : u.e2ePublicKey with
  | none => exact Or.inl (by simp [encryptForParticipantEvents, hpk])
  | some pk =>
    cases him : env.importRSAKey pk with
    | error e =>
      exact Or.inl (by simp [encryptForParticipantEvents, hpk, him])
    | ok userKey =>
      cases hs : st.sessionKeyExportedString with
      | none =>
        exact Or.inl (by simp [encryptForParticipantEvents, hpk, him, hs])
      | some sess =>
        cases hen : env.encryptRSA userKey (env.strToBuf sess) with
        | error e =>
          exact Or.inl
            (by simp [encryptForParticipantEvents, hpk, him, hs, hen])
        | ok enc =>
          refine Or.inr ⟨(match st.keyID with
            | some kid => kid
            | none => "undefined") ++ env.b64encode enc, ?_⟩
          simp [encryptForParticipantEvents, hpk, him, hs, hen]

theorem perUserEvents_filter_set (env : Env) (st : ClientState)
    (u : Participant) :
    (encryptForParticipantEvents env st u).filter Event.isSetRoomKey =
      [] := by
  rcases perUserEvents_shape env st u with h | ⟨w, h⟩ <;> rw [h] <;> rfl

theorem perUserEvents_filter_dist (env : Env) (st : ClientState)
    (u : Participant) :
    (encryptForParticipantEvents env st u).filter Event.isDistribute =
      [.distributeTo u.id] := by
  rcases perUserEvents_shape env st u with h | ⟨w, h⟩ <;> rw [h] <;> rfl

theorem flatMap_filter_set (env : Env) (st : ClientState)
    (us : List Participant) :
    ((us.flatMap (encryptForParticipantEvents env st)).filter
      Event.isSetRoomKey) = [] := by
  induction us with
  | nil => rfl
  | cons u rest ih =>
    simp [List.flatMap_cons, List.filter_append, ih,
      perUserEvents_filter_set]

theorem flatMap_filter_dist (env : Env) (st : ClientState)
    (us : List Participant) :
    ((us.flatMap (encryptForParticipantEvents env st)).filter
      Event.isDistribute) = us.map fun u => .distributeTo u.id := by
  induction us with
  | nil => rfl
  | cons u rest ih =>
    simp [List.flatMap_cons, List.filter_append, ih,
      perUserEvents_filter_dist]

/-- Counterexample to claim C6's ordering: in the fresh-room scenario the
distributor is invoked before the post-adoption key-changed emission, not
after it — the trace places `distributeTo` between the publication RPC
and the final `keyChanged`. -/
theorem fresh_room_order_counterexample :
    (handleMetadataChanged
      { trivEnv with
        getUsersOfRoomWithoutKey := fun _ => .ok [⟨"u1", none⟩] }
      0 "r" ⟨some ⟨"u", true, none, none, none⟩, none, none, none⟩).2 =
      [.keyChanged, .rpcSetRoomKeyID "r" "aaaaaaaaaaaa",
        .rpcGetUsersWithoutKey "r", .distributeTo "u1", .keyChanged] ∧
    emitsBeforeDistributing (handleMetadataChanged
      { trivEnv with
        getUsersOfRoomWithoutKey := fun _ => .ok [⟨"u1", none⟩] }
      0 "r" ⟨some ⟨"u", true, none, none, none⟩, none, none, none⟩).2 =
      false := by
  decide

/-- Amended claim C6: in a fresh encrypted room (metadata present, no
valid key, no wrapped key, no published room key id) with the generation,
publication and participant-list calls succeeding, the manager generates
a key, publishes its derived key id via `setRoomKeyID` exactly once,
adopts the key, invokes the distributor for exactly the participants
returned by the participants-without-key RPC, and emits the post-adoption
`keyChanged` only after the distribution step — not between adoption and
distribution as claimed (an earlier `keyChanged` accompanies the
preceding discard). -/
theorem fresh_room_key_creation (env : Env) (priv : CKey) (rid : String)
    (st : ClientState) (md : RoomMetadata) (sk : CKey)
    (users : List Participant)
    (hmd : st.metadata = some md) (hv : keyValid st md = false)
    (he : strTruthy md.encryptedKey = false)
    (hr : strTruthy md.roomKeyID = false)
    (hg : env.generateAESKey = .ok sk)
    (hp : env.postSetRoomKeyID rid (derivedKeyID env sk) = .ok ())
    (hu : env.getUsersOfRoomWithoutKey rid = .ok users) :
    (handleMetadataChanged env priv rid st).1 =
      applyAdopt (discardKey st)
        (sk, derivedKeyID env sk,
          env.jsonStringifyJWK (env.exportJWKKey sk)) ∧
    (handleMetadataChanged env priv rid st).2 =
      .keyChanged :: .rpcSetRoomKeyID rid (derivedKeyID env sk) ::
        .rpcGetUsersWithoutKey rid ::
        (users.flatMap (encryptForParticipantEvents env
          (applyAdopt (discardKey st)
            (sk, derivedKeyID env sk,
              env.jsonStringifyJWK (env.exportJWKKey sk)))) ++
          [.keyChanged]) ∧
    ((handleMetadataChanged env priv rid st).2.filter
      Event.isSetRoomKey) =
      [.rpcSetRoomKeyID rid (derivedKeyID env sk)] ∧
    ((handleMetadataChanged env priv rid st).2.filter
      Event.isDistribute) = users.map fun u => .distributeTo u.id := by
  have hred : handleMetadataChanged env priv rid st =
      (applyAdopt (discardKey st)
        (sk, derivedKeyID env sk,
          env.jsonStringifyJWK (env.exportJWKKey sk)),
        .keyChanged :: .rpcSetRoomKeyID rid (derivedKeyID env sk) ::
          .rpcGetUsersWithoutKey rid ::
          (users.flatMap (encryptForParticipantEvents env
            (applyAdopt (discardKey st)
              (sk, derivedKeyID env sk,
                env.jsonStringifyJWK (env.exportJWKKey sk)))) ++
            [.keyChanged])) := by
    simp only [handleMetadataChanged, hmd, hv, he, hr, createGroupKey,
      hg, hp, encryptKeyForOtherParticipants, hu]
    simp [List.cons_append]
  refine ⟨by rw [hred], by rw [hred], ?_, ?_⟩
  · rw [hred]
    simp [List.filter_append, flatMap_filter_set, Event.isSetRoomKey]
  · rw [hred]
    simp [List.filter_append, flatMap_filter_dist, Event.isDistribute]

/-- Closed instance of `fresh_room_key_creation`. -/
theorem fresh_room_key_creation_witness :
    ((handleMetadataChanged
      { trivEnv with
        getUsersOfRoomWithoutKey := fun _ => .ok [⟨"u1", none⟩] }
      0 "r" ⟨some ⟨"u", true, none, none, none⟩, none, none, none⟩).2.filter
      Event.isSetRoomKey) =
      [.rpcSetRoomKeyID "r" (derivedKeyID
        { trivEnv with
          getUsersOfRoomWithoutKey := fun _ => .ok [⟨"u1", none⟩] } 0)] ∧
    ((handleMetadataChanged
      { trivEnv with
        getUsersOfRoomWithoutKey := fun _ => .ok [⟨"u1", none⟩] }
      0 "r" ⟨some ⟨"u", true, none, none, none⟩, none, none, none⟩).2.filter
      Event.isDistribute) = [Event.distributeTo "u1"] :=
  ((fresh_room_key_creation
    { trivEnv with
      getUsersOfRoomWithoutKey := fun _ => .ok [⟨"u1", none⟩] }
    0 "r" ⟨some ⟨"u", true, none, none, none⟩, none, none, none⟩
    ⟨"u", true, none, none, none⟩ 0 [⟨"u1", none⟩]
    rfl (by decide) (by decide) (by decide) rfl rfl rfl).2.2)
